import Mathlib

/-
Shallow embedding of the conic-section parametrization engine in
src/element/conic.js (JSXGraph): the four conic constructors
(ellipse, hyperbola, parabola, general conic from five points or six
coefficients), their quadratic-form builders, the eigenvalue
normalization, the per-family polar evaluators, and the
suspend-update caching contract.

The engine's numeric type is modelled by an arbitrary linearly ordered
field `F` (exact arithmetic standing in for IEEE doubles); the
transcendental primitives the code consumes (Math.cos, Math.sin,
Math.tan, Math.sqrt, Math.atan, Math.atan2, Math.PI) are supplied as an
abstract operations record `Ops F`, so every definition below is a
function of those primitives exactly the way the source code is a
client of the Math library.  Concrete instantiations used in witness
theorems pick rational operation tables that agree with the exact real
values at the arguments actually evaluated.

The closure-local mutable variables of each constructor
(rotationMatrix, curve.quadraticform, eigen, a, b, c) become explicit
state records, and each polarForm closure becomes a state-passing
function returning the updated state together with the evaluated
homogeneous coordinate vector.
-/

set_option maxHeartbeats 1000000
set_option linter.unusedSectionVars false
set_option linter.unusedVariables false

namespace ConicJS

abbrev Vec3 (F : Type) := Fin 3 → F

abbrev Mat3 (F : Type) := Fin 3 → Fin 3 → F

variable {F : Type} [LinearOrderedField F]

/-- Builds a 3-vector from its components. -/
def vec3 (x y z : F) : Vec3 F := fun i =>
  if i.val = 0 then x else if i.val = 1 then y else z

/-- Builds a 3x3 matrix from its rows. -/
def mk3 (r0 r1 r2 : Vec3 F) : Mat3 F := fun i =>
  if i.val = 0 then r0 else if i.val = 1 then r1 else r2

/-- Modelled from the spec: the external linear-algebra collaborator's
3x3-matrix-times-3-vector product (Mat.matVecMult). -/
def matVecMult (A : Mat3 F) (v : Vec3 F) : Vec3 F := fun i =>
  A i 0 * v 0 + A i 1 * v 1 + A i 2 * v 2

/-- Modelled from the spec: the external linear-algebra collaborator's
3x3 matrix product (Mat.matMatMult). -/
def matMatMult (A B : Mat3 F) : Mat3 F := fun i j =>
  A i 0 * B 0 j + A i 1 * B 1 j + A i 2 * B 2 j

/-- Modelled from the spec: the external linear-algebra collaborator's
matrix transpose (Mat.transpose). -/
def transpose (A : Mat3 F) : Mat3 F := fun i j => A j i

/-- Modelled from the spec: the external linear-algebra collaborator's
cross product of homogeneous 3-vectors (Mat.crossProduct). -/
def crossProduct (u v : Vec3 F) : Vec3 F :=
  vec3 (u 1 * v 2 - u 2 * v 1) (u 2 * v 0 - u 0 * v 2) (u 0 * v 1 - u 1 * v 0)

/-- Modelled from the spec: the external linear-algebra collaborator's
inner product of 3-vectors (Mat.innerProduct). -/
def innerProduct (u v : Vec3 F) : F := u 0 * v 0 + u 1 * v 1 + u 2 * v 2

/-- Value of the quadratic form `M` at the homogeneous point `p`,
written the way fitConic computes it: innerProduct(p, matVecMult(M, p)). -/
def quadEval (M : Mat3 F) (p : Vec3 F) : F := innerProduct p (matVecMult M p)

/-- Modelled from the spec: the transcendental primitives of the Math
library the engine consumes (cos, sin, tan, sqrt, atan, atan2, PI).
All engine definitions are parametric in this record, exactly as the
source is a client of the ambient Math object. -/
structure Ops (F : Type) where
  cos : F → F
  sin : F → F
  tan : F → F
  sqrt : F → F
  atan : F → F
  atan2 : F → F → F
  pi : F

/-- Live inputs read by the ellipse closure on one evaluation: the two
focus coordinates and the current value of the majorAxis() thunk. -/
structure EllipseInputs (F : Type) where
  f0x : F
  f0y : F
  f1x : F
  f1y : F
  majorAxis : F

/-- Closure state of the ellipse constructor: the cached rotation
matrix and the published curve.quadraticform. -/
structure EllipseState (F : Type) where
  rotationMatrix : Mat3 F
  quadraticform : Mat3 F

/-- Midpoint element x-coordinate: (F[0].X() + F[1].X()) * 0.5. -/
def ellipseMidX (inp : EllipseInputs F) : F := (inp.f0x + inp.f1x) * (1 / 2)

/-- Midpoint element y-coordinate: (F[0].Y() + F[1].Y()) * 0.5. -/
def ellipseMidY (inp : EllipseInputs F) : F := (inp.f0y + inp.f1y) * (1 / 2)

/-- Semi-major axis of the ellipse: a = majorAxis() * 0.5. -/
def ellipseA (inp : EllipseInputs F) : F := inp.majorAxis * (1 / 2)

/-- Linear eccentricity of the ellipse: e = F[1].Dist(F[0]) * 0.5, with
Dist the external Euclidean point distance (modelled from the spec as
sqrt of the sum of squared coordinate differences). -/
def ellipseE (ops : Ops F) (inp : EllipseInputs F) : F :=
  ops.sqrt ((inp.f1x - inp.f0x) * (inp.f1x - inp.f0x) +
    (inp.f1y - inp.f0y) * (inp.f1y - inp.f0y)) * (1 / 2)

/-- Semi-minor axis of the ellipse: b = Math.sqrt(a * a - e * e). -/
def ellipseB (ops : Ops F) (inp : EllipseInputs F) : F :=
  ops.sqrt (ellipseA inp * ellipseA inp - ellipseE ops inp * ellipseE ops inp)

/-- transformFunc of the ellipse constructor: rotation by the angle of
the segment from F[0] to F[1] (atan2 plus a sign correction, with a
separate branch for a nearly vertical segment), translated to the
midpoint of the foci. -/
def ellipseTransformFunc (ops : Ops F) (inp : EllipseInputs F) : Mat3 F :=
  let ax := inp.f0x
  let ay := inp.f0y
  let bx := inp.f1x
  let bY := inp.f1y
  let sgn : F := if bx - ax > 0 then 1 else -1
  let beta : F :=
    if |bx - ax| > 1 / 10000000 then
      ops.atan2 (bY - ay) (bx - ax) + (if sgn < 0 then ops.pi else 0)
    else
      (if bY - ay > 0 then (1 / 2 : F) else -(1 / 2)) * ops.pi
  let co := ops.cos beta
  let si := ops.sin beta
  mk3 (vec3 1 0 0)
    (vec3 (ellipseMidX inp) co (-si))
    (vec3 (ellipseMidY inp) si co)

/-- polarForm of the ellipse constructor.  Computes the live axis
scalars a, e, b on every call; when suspendUpdate is false it refreshes
rotationMatrix from transformFunc and republishes curve.quadraticform;
it always returns rotationMatrix applied to (1, a cos phi, b sin phi). -/
def ellipsePolarForm (ops : Ops F) (inp : EllipseInputs F)
    (st : EllipseState F) (phi : F) (suspendUpdate : Bool) :
    EllipseState F × Vec3 F :=
  let a := ellipseA inp
  let aa := a * a
  let e := ellipseE ops inp
  let bb := aa - e * e
  let b := ellipseB ops inp
  if suspendUpdate then
    (st, matVecMult st.rotationMatrix (vec3 1 (a * ops.cos phi) (b * ops.sin phi)))
  else
    let rot := ellipseTransformFunc ops inp
    let mx := ellipseMidX inp
    let my := ellipseMidY inp
    let T : Mat3 F :=
      mk3 (vec3 (rot 0 0) 0 0)
        (vec3 (mx * (1 - rot 1 1) + my * rot 1 2) (rot 1 1) (rot 2 1))
        (vec3 (my * (1 - rot 1 1) - mx * rot 1 2) (rot 1 2) (rot 2 2))
    let inner : Mat3 F :=
      mk3 (vec3 (-1 + mx * mx / (a * a) + my * my / bb) (-mx / aa) (-mx / bb))
        (vec3 (-mx / aa) (1 / aa) 0)
        (vec3 (-my / bb) 0 (1 / bb))
    let qf := matMatMult (transpose T) (matMatMult inner T)
    (⟨rot, qf⟩, matVecMult rot (vec3 1 (a * ops.cos phi) (b * ops.sin phi)))

/-- Live inputs read by the hyperbola closure on one evaluation. -/
structure HyperbolaInputs (F : Type) where
  f0x : F
  f0y : F
  f1x : F
  f1y : F
  majorAxis : F

/-- Closure state of the hyperbola constructor. -/
structure HyperbolaState (F : Type) where
  rotationMatrix : Mat3 F
  quadraticform : Mat3 F

/-- Midpoint element x-coordinate of the hyperbola. -/
def hyperbolaMidX (inp : HyperbolaInputs F) : F := (inp.f0x + inp.f1x) * (1 / 2)

/-- Midpoint element y-coordinate of the hyperbola. -/
def hyperbolaMidY (inp : HyperbolaInputs F) : F := (inp.f0y + inp.f1y) * (1 / 2)

/-- Semi-major axis of the hyperbola: a = majorAxis() * 0.5. -/
def hyperbolaA (inp : HyperbolaInputs F) : F := inp.majorAxis * (1 / 2)

/-- Linear eccentricity of the hyperbola: e = F[1].Dist(F[0]) * 0.5. -/
def hyperbolaE (ops : Ops F) (inp : HyperbolaInputs F) : F :=
  ops.sqrt ((inp.f1x - inp.f0x) * (inp.f1x - inp.f0x) +
    (inp.f1y - inp.f0y) * (inp.f1y - inp.f0y)) * (1 / 2)

/-- Semi-minor axis of the hyperbola: b = Math.sqrt(-a * a + e * e). -/
def hyperbolaB (ops : Ops F) (inp : HyperbolaInputs F) : F :=
  ops.sqrt (-(hyperbolaA inp * hyperbolaA inp) +
    hyperbolaE ops inp * hyperbolaE ops inp)

/-- transformFunc of the hyperbola constructor (same rotation by the
foci segment as the ellipse). -/
def hyperbolaTransformFunc (ops : Ops F) (inp : HyperbolaInputs F) : Mat3 F :=
  let ax := inp.f0x
  let ay := inp.f0y
  let bx := inp.f1x
  let bY := inp.f1y
  let sgn : F := if bx - ax > 0 then 1 else -1
  let beta : F :=
    if |bx - ax| > 1 / 10000000 then
      ops.atan2 (bY - ay) (bx - ax) + (if sgn < 0 then ops.pi else 0)
    else
      (if bY - ay > 0 then (1 / 2 : F) else -(1 / 2)) * ops.pi
  mk3 (vec3 1 0 0)
    (vec3 (hyperbolaMidX inp) (ops.cos beta) (-ops.sin beta))
    (vec3 (hyperbolaMidY inp) (ops.sin beta) (ops.cos beta))

/-- polarForm of the hyperbola constructor; the right branch is
parametrized as (a * sec t, b * tan t). -/
def hyperbolaPolarForm (ops : Ops F) (inp : HyperbolaInputs F)
    (st : HyperbolaState F) (phi : F) (suspendUpdate : Bool) :
    HyperbolaState F × Vec3 F :=
  let a := hyperbolaA inp
  let aa := a * a
  let e := hyperbolaE ops inp
  let b := hyperbolaB ops inp
  let bb := b * b
  if suspendUpdate then
    (st, matVecMult st.rotationMatrix (vec3 1 (a / ops.cos phi) (b * ops.tan phi)))
  else
    let rot := hyperbolaTransformFunc ops inp
    let mx := hyperbolaMidX inp
    let my := hyperbolaMidY inp
    let T : Mat3 F :=
      mk3 (vec3 (rot 0 0) 0 0)
        (vec3 (mx * (1 - rot 1 1) + my * rot 1 2) (rot 1 1) (rot 2 1))
        (vec3 (my * (1 - rot 1 1) - mx * rot 1 2) (rot 1 2) (rot 2 2))
    let inner : Mat3 F :=
      mk3 (vec3 (-1 + mx * mx / aa + my * my / bb) (-mx / aa) (my / bb))
        (vec3 (-mx / aa) (1 / aa) 0)
        (vec3 (my / bb) 0 (-1 / bb))
    let qf := matMatMult (transpose T) (matMatMult inner T)
    (⟨rot, qf⟩, matVecMult rot (vec3 1 (a / ops.cos phi) (b * ops.tan phi)))

/-- Live inputs read by the parabola closure on one evaluation: the
focus coordinates, the coordinates of the midpoint element M (the foot
of the perpendicular from the focus onto the directrix — modelled from
the spec, since M is produced by the external Geometry.meetLineLine
collaborator), and the current slope of the directrix line. -/
structure ParabolaInputs (F : Type) where
  mX : F
  mY : F
  f1x : F
  f1y : F
  slope : F

/-- Closure state of the parabola constructor. -/
structure ParabolaState (F : Type) where
  rotationMatrix : Mat3 F
  quadraticform : Mat3 F

/-- Half the focus-to-vertex distance of the parabola:
e = M.Dist(F1) * 0.5. -/
def parabolaE (ops : Ops F) (inp : ParabolaInputs F) : F :=
  ops.sqrt ((inp.mX - inp.f1x) * (inp.mX - inp.f1x) +
    (inp.mY - inp.f1y) * (inp.mY - inp.f1y)) * (1 / 2)

/-- Mean x-coordinate of midpoint and focus: a = (M.X() + F1.X()) * 0.5. -/
def parabolaA (inp : ParabolaInputs F) : F := (inp.mX + inp.f1x) * (1 / 2)

/-- Mean y-coordinate of midpoint and focus: b = (M.Y() + F1.Y()) * 0.5. -/
def parabolaB (inp : ParabolaInputs F) : F := (inp.mY + inp.f1y) * (1 / 2)

/-- transformFunc of the parabola constructor: rotation by the slope
angle of the directrix, with an orientation correction when the focus
lies below the midpoint (or to its right at equal height). -/
def parabolaTransformFunc (ops : Ops F) (inp : ParabolaInputs F) : Mat3 F :=
  let beta0 := ops.atan inp.slope
  let x := (inp.mX + inp.f1x) * (1 / 2)
  let y := (inp.mY + inp.f1y) * (1 / 2)
  let beta := beta0 +
    (if inp.f1y - inp.mY < 0 ∨ (inp.f1y = inp.mY ∧ inp.f1x > inp.mX)
      then ops.pi else 0)
  mk3 (vec3 1 0 0)
    (vec3 (x * (1 - ops.cos beta) + y * ops.sin beta) (ops.cos beta) (-ops.sin beta))
    (vec3 (y * (1 - ops.cos beta) - x * ops.sin beta) (ops.sin beta) (ops.cos beta))

/-- polarForm of the parabola constructor: the returned homogeneous
vector is rotationMatrix applied to (4e, 4e(t + a), t^2 + 4e b),
with no normalization of the leading coordinate. -/
def parabolaPolarForm (ops : Ops F) (inp : ParabolaInputs F)
    (st : ParabolaState F) (t : F) (suspendUpdate : Bool) :
    ParabolaState F × Vec3 F :=
  let e := parabolaE ops inp
  let e4 := e * 4
  let a := parabolaA inp
  let b := parabolaB inp
  if suspendUpdate then
    (st, matVecMult st.rotationMatrix (vec3 e4 (e4 * (t + a)) (t * t + b * e4)))
  else
    let rot := parabolaTransformFunc ops inp
    let T : Mat3 F :=
      mk3 (vec3 (rot 0 0) 0 0)
        (vec3 (a * (1 - rot 1 1) + b * rot 1 2) (rot 1 1) (rot 2 1))
        (vec3 (b * (1 - rot 1 1) - a * rot 1 2) (rot 1 2) (rot 2 2))
    let inner : Mat3 F :=
      mk3 (vec3 (-b * e4 - a * a) a (2 * e))
        (vec3 a (-1) 0)
        (vec3 (2 * e) 0 0)
    let qf := matMatMult (transpose T) (matMatMult inner T)
    (⟨rot, qf⟩, matVecMult rot (vec3 e4 (e4 * (t + a)) (t * t + b * e4)))

/-- curve.X of the parabola: the raw second component of polarForm. -/
def parabolaX (ops : Ops F) (inp : ParabolaInputs F)
    (st : ParabolaState F) (phi : F) (suspendUpdate : Bool) : F :=
  (parabolaPolarForm ops inp st phi suspendUpdate).2 1

/-- curve.Y of the parabola: the raw third component of polarForm. -/
def parabolaY (ops : Ops F) (inp : ParabolaInputs F)
    (st : ParabolaState F) (phi : F) (suspendUpdate : Bool) : F :=
  (parabolaPolarForm ops inp st phi suspendUpdate).2 2

/-- sym(A) = A + A^t, the in-place symmetrization used by the general
conic constructor (the first loop doubles the diagonal and adds the
mirror entry above the diagonal, the second copies the upper triangle
down, so the result is exactly A + A^t). -/
def sym (A : Mat3 F) : Mat3 F := fun i j => A i j + A j i

/-- degconic(v, w) = sym(v * w^t), the degenerate (rank at most 2)
conic formed from the line pair v, w. -/
def degconic (v w : Vec3 F) : Mat3 F := sym (fun i j => v i * w j)

/-- fitConic(A, B, p) = (p^t B p) * A - (p^t A p) * B, the pencil
combination through p of the two conics A and B. -/
def fitConic (A B : Mat3 F) (p : Vec3 F) : Mat3 F :=
  let pBp := innerProduct p (matVecMult B p)
  let pAp := innerProduct p (matVecMult A p)
  fun i j => pBp * A i j - pAp * B i j

/-- Closure state of the general conic constructor: the cached rotation
matrix, the published curve.quadraticform, the eigen data returned by
the Jacobi solver after sign normalization (eigenVals is eigen[0],
eigenVecs is eigen[1]; rotationMatrix aliases eigen[1] after a
recompute), and the cached axis scalars a, b, c. -/
structure ConicState (F : Type) where
  rotationMatrix : Mat3 F
  quadraticform : Mat3 F
  eigenVals : Mat3 F
  eigenVecs : Mat3 F
  a : F
  b : F
  c : F

/-- The live values of the six coefficient thunks of the
coefficient-defined general conic, in the parent order
(a00, a11, a22, a01, a02, a12). -/
structure ConicCoeffInputs (F : Type) where
  a00 : F
  a11 : F
  a22 : F
  a01 : F
  a02 : F
  a12 : F

/-- The matrix M built from the six coefficient thunks in the (z, x, y)
layout [[A2, A4, A5], [A4, A0, A3], [A5, A3, A1]]. -/
def conicCoeffMatrix (inp : ConicCoeffInputs F) : Mat3 F :=
  mk3 (vec3 inp.a22 inp.a02 inp.a12)
    (vec3 inp.a02 inp.a00 inp.a01)
    (vec3 inp.a12 inp.a01 inp.a11)

/-- The quadratic form of the five-point general conic:
c1 = degconic(p0 x p1, p2 x p3), c2 = degconic(p0 x p2, p1 x p3),
M = fitConic(c1, c2, p4). -/
def conicFivePointForm (pts : Fin 5 → Vec3 F) : Mat3 F :=
  fitConic
    (degconic (crossProduct (pts 0) (pts 1)) (crossProduct (pts 2) (pts 3)))
    (degconic (crossProduct (pts 0) (pts 2)) (crossProduct (pts 1) (pts 3)))
    (pts 4)

/-- The non-suspended tail of the general conic's polarForm: publish
curve.quadraticform = M, run the external Jacobi eigensolver (modelled
from the spec as an abstract function returning the pair
(eigenvalue matrix eigen[0], eigenvector matrix eigen[1])), negate the
three diagonal eigenvalues jointly when eigen[0][0][0] is negative,
install eigen[1] as rotationMatrix, and cache the axis scalars
c, a, b as square roots of the absolute eigenvalues. -/
def conicRecompute (ops : Ops F) (jacobi : Mat3 F → Mat3 F × Mat3 F)
    (M : Mat3 F) : ConicState F :=
  let eigen := jacobi M
  let ev : Mat3 F :=
    if eigen.1 0 0 < 0 then
      fun i j => if i = j then -eigen.1 i j else eigen.1 i j
    else eigen.1
  ⟨eigen.2, M, ev, eigen.2,
    ops.sqrt |ev 1 1|, ops.sqrt |ev 2 2|, ops.sqrt |ev 0 0|⟩

/-- The evaluation tail of the general conic's polarForm: select one of
the three trigonometric branches from the signs of the two non-primary
eigenvalues, apply the cached rotation, and normalize the homogeneous
coordinate to w = 1.  The fall-through case, in which the source leaves
v undefined (a runtime type error on v[1]), is modelled as none. -/
def conicEval (ops : Ops F) (st : ConicState F) (phi : F) : Option (Vec3 F) :=
  let l1 := st.eigenVals 1 1
  let l2 := st.eigenVals 2 2
  let v : Option (Vec3 F) :=
    if l1 ≤ 0 ∧ l2 ≤ 0 then
      some (matVecMult st.rotationMatrix
        (vec3 (1 / st.c) (ops.cos phi / st.a) (ops.sin phi / st.b)))
    else if l1 ≤ 0 ∧ l2 > 0 then
      some (matVecMult st.rotationMatrix
        (vec3 (ops.cos phi / st.c) (1 / st.a) (ops.sin phi / st.b)))
    else if l2 < 0 then
      some (matVecMult st.rotationMatrix
        (vec3 (ops.sin phi / st.c) (ops.cos phi / st.a) (1 / st.b)))
    else none
  v.map fun w => vec3 1 (w 1 / w 0) (w 2 / w 0)

/-- polarForm of the five-point general conic. -/
def conicPolarFormPoints (ops : Ops F) (jacobi : Mat3 F → Mat3 F × Mat3 F)
    (pts : Fin 5 → Vec3 F) (st : ConicState F) (phi : F)
    (suspendUpdate : Bool) : ConicState F × Option (Vec3 F) :=
  let st' := if suspendUpdate then st
    else conicRecompute ops jacobi (conicFivePointForm pts)
  (st', conicEval ops st' phi)

/-- polarForm of the coefficient-defined general conic. -/
def conicPolarFormCoeffs (ops : Ops F) (jacobi : Mat3 F → Mat3 F × Mat3 F)
    (inp : ConicCoeffInputs F) (st : ConicState F) (phi : F)
    (suspendUpdate : Bool) : ConicState F × Option (Vec3 F) :=
  let st' := if suspendUpdate then st
    else conicRecompute ops jacobi (conicCoeffMatrix inp)
  (st', conicEval ops st' phi)

/-- Guard of the first trigonometric branch of the general conic
evaluator, as reached by the if-ladder. -/
def branchReached1 (st : ConicState F) : Prop :=
  st.eigenVals 1 1 ≤ 0 ∧ st.eigenVals 2 2 ≤ 0

/-- Guard of the second trigonometric branch of the general conic
evaluator, as reached by the if-ladder. -/
def branchReached2 (st : ConicState F) : Prop :=
  ¬branchReached1 st ∧ (st.eigenVals 1 1 ≤ 0 ∧ st.eigenVals 2 2 > 0)

/-- Guard of the third trigonometric branch of the general conic
evaluator, as reached by the if-ladder. -/
def branchReached3 (st : ConicState F) : Prop :=
  ¬branchReached1 st ∧ ¬(st.eigenVals 1 1 ≤ 0 ∧ st.eigenVals 2 2 > 0) ∧
    st.eigenVals 2 2 < 0

/-- Semi-major axis of the ellipse following the spec's words:
a = majorAxis() / 2. -/
def specEllipseA (inp : EllipseInputs F) : F := inp.majorAxis / 2

/-- Linear eccentricity of the ellipse following the spec's words:
e is half the distance between the foci. -/
def specEllipseE (ops : Ops F) (inp : EllipseInputs F) : F :=
  ops.sqrt ((inp.f1x - inp.f0x) ^ 2 + (inp.f1y - inp.f0y) ^ 2) / 2

/-- Semi-minor axis of the ellipse following the spec's words:
b is the square root of a squared minus e squared. -/
def specEllipseB (ops : Ops F) (inp : EllipseInputs F) : F :=
  ops.sqrt (specEllipseA inp ^ 2 - specEllipseE ops inp ^ 2)

/-- The rotation angle of the foci segment following the spec's words:
atan2 of the segment from F[0] to F[1] with a sign correction for the
direction of travel, and a vertical-segment branch when the horizontal
difference is at most 1e-7 in magnitude. -/
def specEllipseBeta (ops : Ops F) (inp : EllipseInputs F) : F :=
  if |inp.f1x - inp.f0x| ≤ 1 / 10000000 then
    (if inp.f1y - inp.f0y > 0 then (1 / 2 : F) else -(1 / 2)) * ops.pi
  else
    ops.atan2 (inp.f1y - inp.f0y) (inp.f1x - inp.f0x) +
      (if inp.f1x - inp.f0x > 0 then 0 else ops.pi)

/-- The similarity transform following the spec's words: translate to
the midpoint of the foci and rotate by the angle of the foci segment. -/
def specEllipseRotation (ops : Ops F) (inp : EllipseInputs F) : Mat3 F :=
  mk3 (vec3 1 0 0)
    (vec3 ((inp.f0x + inp.f1x) / 2) (ops.cos (specEllipseBeta ops inp))
      (-ops.sin (specEllipseBeta ops inp)))
    (vec3 ((inp.f0y + inp.f1y) / 2) (ops.sin (specEllipseBeta ops inp))
      (ops.cos (specEllipseBeta ops inp)))

/-- The pre-rotation parabola vector as the spec writes it:
(4e, 4e(t + a), t^2 + 4e b). -/
def specParabolaPreVec (ops : Ops F) (inp : ParabolaInputs F) (t : F) : Vec3 F :=
  vec3 (4 * parabolaE ops inp) (4 * parabolaE ops inp * (t + parabolaA inp))
    (t * t + 4 * parabolaE ops inp * parabolaB inp)

/-- Rational operation table for the concrete ellipse with foci
(-1, 4) and (-1, -4): that focus pair takes the vertical-segment branch
with beta = -pi/2, where the exact real values are cos beta = 0 and
sin beta = -1; the only square root taken is sqrt(64) = 8 (the distance
between the foci), and atan2 is never consulted on this branch. -/
def opsC1 : Ops ℚ :=
  ⟨fun _ => 0, fun _ => -1, fun _ => 0, fun x => if x = 64 then 8 else 0,
    fun _ => 0, fun _ _ => 0, 0⟩

/-- Concrete ellipse inputs: foci (-1, 4) and (-1, -4), majorAxis 10
(hence a = 5, e = 4, b = 3, midpoint (-1, 0)). -/
def inpC1 : EllipseInputs ℚ := ⟨-1, 4, -1, -4, 10⟩

/-- Arbitrary prior ellipse state (irrelevant on a recompute call). -/
def stC1 : EllipseState ℚ := ⟨fun _ _ => 0, fun _ _ => 0⟩

/-- Trivial rational operation table (the general conic branch guard
reads only cached state, never the operations). -/
def opsW6 : Ops ℚ :=
  ⟨fun _ => 0, fun _ => 0, fun _ => 0, fun _ => 0, fun _ => 0, fun _ _ => 0, 0⟩

/-- Concrete general-conic state with normalized eigenvalues 1, -1, -1
(an ellipse-type sign pattern selecting the first trig branch). -/
def stW6 : ConicState ℚ :=
  ⟨mk3 (vec3 1 0 0) (vec3 0 1 0) (vec3 0 0 1), fun _ _ => 0,
    mk3 (vec3 1 0 0) (vec3 0 (-1) 0) (vec3 0 0 (-1)),
    mk3 (vec3 1 0 0) (vec3 0 1 0) (vec3 0 0 1), 1, 1, 1⟩

/-- Rational operation table for a horizontal concrete ellipse with
foci (0,0) and (2,0) evaluated at phi = 0: the exact real values are
cos 0 = 1, sin 0 = 0 and sqrt(4) = 2 (the distance between the foci);
other square-root arguments only feed the b-axis term, which is
multiplied by sin 0 = 0. -/
def opsW7 : Ops ℚ :=
  ⟨fun _ => 1, fun _ => 0, fun _ => 0, fun x => if x = 4 then 2 else 0,
    fun _ => 0, fun _ _ => 0, 0⟩

/-- Concrete ellipse inputs: foci (0,0) and (2,0), majorAxis 10
(hence a = 5, e = 1). -/
def inpW7 : EllipseInputs ℚ := ⟨0, 0, 2, 0, 10⟩

/-- Arbitrary prior ellipse state (irrelevant on a recompute call). -/
def stW7 : EllipseState ℚ := ⟨fun _ _ => 0, fun _ _ => 0⟩

/-- Rational operation table like opsW7, for the suspended-call
counterexample (cos 0 = 1, sin 0 = 0, sqrt(4) = 2 are the exact real
values at the arguments consulted). -/
def opsW8 : Ops ℚ :=
  ⟨fun _ => 1, fun _ => 0, fun _ => 0, fun x => if x = 4 then 2 else 0,
    fun _ => 0, fun _ _ => 0, 0⟩

/-- Live ellipse inputs: foci (0,0), (2,0), majorAxis() currently 10. -/
def inpW8a : EllipseInputs ℚ := ⟨0, 0, 2, 0, 10⟩

/-- The same live inputs except majorAxis() now returns 20. -/
def inpW8b : EllipseInputs ℚ := ⟨0, 0, 2, 0, 20⟩

/-- A fixed cached ellipse state whose rotation matrix is the identity. -/
def stW8 : EllipseState ℚ :=
  ⟨mk3 (vec3 1 0 0) (vec3 0 1 0) (vec3 0 0 1), fun _ _ => 0⟩

/-- Concrete eigensolver output: eigenvalue matrix diag(-2, 3, 5) with
a negative primary eigenvalue, and an all-ones eigenvector matrix (so
any negated row or column would be visible as a -1 entry). -/
def jacobiStub9 : Mat3 ℚ → Mat3 ℚ × Mat3 ℚ :=
  fun _ => (mk3 (vec3 (-2) 0 0) (vec3 0 3 0) (vec3 0 0 5), fun _ _ => 1)

/-- Trivial rational operation table for the normalization theorems. -/
def opsW9 : Ops ℚ :=
  ⟨fun _ => 0, fun _ => 0, fun _ => 0, fun _ => 0, fun _ => 0, fun _ _ => 0, 0⟩

/-- The zero matrix, used as an arbitrary quadratic form input. -/
def mZero : Mat3 ℚ := fun _ _ => 0

/-- Rational operation table for a concrete parabola with midpoint
(0,0) and focus (0,2): the only square root consulted is sqrt(4) = 2
(the midpoint-to-focus distance); cos, sin, atan feed only the cached
rotation, which the stated components do not depend on. -/
def opsW10 : Ops ℚ :=
  ⟨fun _ => 1, fun _ => 0, fun _ => 0, fun x => if x = 4 then 2 else 0,
    fun _ => 0, fun _ _ => 0, 0⟩

/-- Concrete parabola inputs: midpoint (0,0), focus (0,2), directrix
slope 0 (hence e = 1). -/
def inpW10 : ParabolaInputs ℚ := ⟨0, 0, 0, 2, 0⟩

/-- Arbitrary prior parabola state (irrelevant on a recompute call). -/
def stW10 : ParabolaState ℚ := ⟨fun _ _ => 0, fun _ _ => 0⟩

@[simp] theorem vec3_zero (x y z : F) : vec3 x y z 0 = x := rfl

@[simp] theorem vec3_one (x y z : F) : vec3 x y z 1 = y := rfl

@[simp] theorem vec3_two (x y z : F) : vec3 x y z 2 = z := rfl

@[simp] theorem mk3_zero (r0 r1 r2 : Vec3 F) : mk3 r0 r1 r2 0 = r0 := rfl

@[simp] theorem mk3_one (r0 r1 r2 : Vec3 F) : mk3 r0 r1 r2 1 = r1 := rfl

@[simp] theorem mk3_two (r0 r1 r2 : Vec3 F) : mk3 r0 r1 r2 2 = r2 := rfl

theorem quadEval_degconic (v w p : Vec3 F) :
    quadEval (degconic v w) p = 2 * (innerProduct v p * innerProduct w p) := by
  simp only [quadEval, degconic, sym, innerProduct, matVecMult]
  ring

theorem innerProduct_cross_left (u v : Vec3 F) :
    innerProduct (crossProduct u v) u = 0 := by
  simp only [innerProduct, crossProduct, vec3_zero, vec3_one, vec3_two]
  ring

theorem innerProduct_cross_right (u v : Vec3 F) :
    innerProduct (crossProduct u v) v = 0 := by
  simp only [innerProduct, crossProduct, vec3_zero, vec3_one, vec3_two]
  ring

theorem quadEval_fitConic (A B : Mat3 F) (q p : Vec3 F) :
    quadEval (fitConic A B q) p
      = quadEval B q * quadEval A p - quadEval A q * quadEval B p := by
  simp only [quadEval, fitConic, innerProduct, matVecMult]
  ring

/-- The five-point quadratic form annihilates each generating point:
each of p0..p3 lies on one line of each degenerate conic of the pencil,
and p4 is annihilated by the pencil combination itself. -/
theorem quadEval_fivePoint_zero (pts : Fin 5 → Vec3 F) :
    ∀ i : Fin 5, quadEval (conicFivePointForm pts) (pts i) = 0 := by
  have h0 : quadEval (conicFivePointForm pts) (pts 0) = 0 := by
    rw [conicFivePointForm, quadEval_fitConic]
    simp only [quadEval_degconic, innerProduct_cross_left]
    ring
  have h1 : quadEval (conicFivePointForm pts) (pts 1) = 0 := by
    rw [conicFivePointForm, quadEval_fitConic]
    simp only [quadEval_degconic, innerProduct_cross_left, innerProduct_cross_right]
    ring
  have h2 : quadEval (conicFivePointForm pts) (pts 2) = 0 := by
    rw [conicFivePointForm, quadEval_fitConic]
    simp only [quadEval_degconic, innerProduct_cross_left, innerProduct_cross_right]
    ring
  have h3 : quadEval (conicFivePointForm pts) (pts 3) = 0 := by
    rw [conicFivePointForm, quadEval_fitConic]
    simp only [quadEval_degconic, innerProduct_cross_left, innerProduct_cross_right]
    ring
  have h4 : quadEval (conicFivePointForm pts) (pts 4) = 0 := by
    rw [conicFivePointForm, quadEval_fitConic]
    ring
  intro i
  fin_cases i
  · exact h0
  · exact h1
  · exact h2
  · exact h3
  · exact h4

/-- After a non-suspended recompute the stored primary eigenvalue is
non-negative: the joint negation fires exactly when it was negative. -/
theorem conicRecompute_eigen0_nonneg (ops : Ops F)
    (jacobi : Mat3 F → Mat3 F × Mat3 F) (M : Mat3 F) :
    0 ≤ (conicRecompute ops jacobi M).eigenVals 0 0 := by
  simp only [conicRecompute]
  split_ifs with h
  · show 0 ≤ (if (0 : Fin 3) = 0 then -(jacobi M).1 0 0 else (jacobi M).1 0 0)
    rw [if_pos rfl]
    linarith
  · exact not_lt.mp h

theorem ellipseA_eq_spec (inp : EllipseInputs F) : ellipseA inp = specEllipseA inp := by
  rw [ellipseA, specEllipseA]; ring

theorem ellipseE_eq_spec (ops : Ops F) (inp : EllipseInputs F) :
    ellipseE ops inp = specEllipseE ops inp := by
  rw [ellipseE, specEllipseE]
  have harg : (inp.f1x - inp.f0x) * (inp.f1x - inp.f0x) +
      (inp.f1y - inp.f0y) * (inp.f1y - inp.f0y)
      = (inp.f1x - inp.f0x) ^ 2 + (inp.f1y - inp.f0y) ^ 2 := by ring
  rw [harg]; ring

theorem ellipseB_eq_spec (ops : Ops F) (inp : EllipseInputs F) :
    ellipseB ops inp = specEllipseB ops inp := by
  rw [ellipseB, specEllipseB]
  congr 1
  rw [ellipseA_eq_spec, ellipseE_eq_spec]
  ring

/-- The source's transformFunc agrees with the similarity transform as
the spec describes it (atan2 plus sign correction, vertical branch,
translation to the foci midpoint). -/
theorem ellipseTransformFunc_eq_spec (ops : Ops F) (inp : EllipseInputs F) :
    ellipseTransformFunc ops inp = specEllipseRotation ops inp := by
  have hb : (if |inp.f1x - inp.f0x| > 1 / 10000000 then
        ops.atan2 (inp.f1y - inp.f0y) (inp.f1x - inp.f0x) +
          (if (if inp.f1x - inp.f0x > 0 then (1 : F) else -1) < 0 then ops.pi else 0)
      else (if inp.f1y - inp.f0y > 0 then (1 / 2 : F) else -(1 / 2)) * ops.pi)
      = specEllipseBeta ops inp := by
    rw [specEllipseBeta]
    by_cases hx : |inp.f1x - inp.f0x| > 1 / 10000000
    · rw [if_pos hx, if_neg (not_le.mpr hx)]
      congr 1
      by_cases hd : inp.f1x - inp.f0x > 0
      · rw [if_pos hd, if_pos hd, if_neg (by norm_num : ¬((1 : F) < 0))]
      · rw [if_neg hd, if_neg hd, if_pos (by norm_num : (-1 : F) < 0)]
    · rw [if_neg hx, if_pos (not_lt.mp hx)]
  rw [ellipseTransformFunc, specEllipseRotation, hb, ellipseMidX, ellipseMidY]
  ring_nf

/-- C1: the claim asserts that after every non-suspended evaluation the
stored curve.quadraticform is symmetric for every conic family.  This
theorem evaluates the ellipse builder at the concrete input with foci
(-1, 4) and (-1, -4) and majorAxis 10 and shows the stored matrix has
entry (0,1) equal to 2/9 but entry (1,0) equal to 1/9, so it is not
symmetric: the ellipse branch writes -mx/bb at position (0,2) of its
pre-transform matrix where the ellipse equation (compare the symmetric
hyperbola branch) requires -my/bb. -/
theorem c1_ellipse_quadraticform_asymmetric :
    (ellipsePolarForm opsC1 inpC1 stC1 0 false).1.quadraticform 0 1 = 2 / 9 ∧
    (ellipsePolarForm opsC1 inpC1 stC1 0 false).1.quadraticform 1 0 = 1 / 9 ∧
    ¬(∀ i j : Fin 3, (ellipsePolarForm opsC1 inpC1 stC1 0 false).1.quadraticform i j
        = (ellipsePolarForm opsC1 inpC1 stC1 0 false).1.quadraticform j i) := by
  have h01 : (ellipsePolarForm opsC1 inpC1 stC1 0 false).1.quadraticform 0 1 = 2 / 9 := by
    norm_num [ellipsePolarForm, ellipseTransformFunc, ellipseA, ellipseE, ellipseB,
      ellipseMidX, ellipseMidY, opsC1, inpC1, stC1, matMatMult, matVecMult,
      transpose, mk3, vec3]
  have h10 : (ellipsePolarForm opsC1 inpC1 stC1 0 false).1.quadraticform 1 0 = 1 / 9 := by
    norm_num [ellipsePolarForm, ellipseTransformFunc, ellipseA, ellipseE, ellipseB,
      ellipseMidX, ellipseMidY, opsC1, inpC1, stC1, matMatMult, matVecMult,
      transpose, mk3, vec3]
  refine ⟨h01, h10, fun hsym => ?_⟩
  have h := hsym 0 1
  rw [h01, h10] at h
  norm_num at h

/-- C2: on a non-suspended evaluation of the five-point conic the
stored quadratic form equals, entry by entry, the pencil
(p4^t c2 p4) * c1 - (p4^t c1 p4) * c2 with c1 = sym(l01 l23^t) and
c2 = sym(l02 l13^t) built from the cross-product lines, and in exact
arithmetic this form annihilates every one of the five generating
points. -/
theorem c2_five_point_pencil_annihilates (ops : Ops F)
    (jacobi : Mat3 F → Mat3 F × Mat3 F) (pts : Fin 5 → Vec3 F)
    (st : ConicState F) (phi : F) :
    (∀ i j : Fin 3,
      (conicPolarFormPoints ops jacobi pts st phi false).1.quadraticform i j
        = quadEval (degconic (crossProduct (pts 0) (pts 2))
              (crossProduct (pts 1) (pts 3))) (pts 4)
            * degconic (crossProduct (pts 0) (pts 1))
                (crossProduct (pts 2) (pts 3)) i j
          - quadEval (degconic (crossProduct (pts 0) (pts 1))
              (crossProduct (pts 2) (pts 3))) (pts 4)
            * degconic (crossProduct (pts 0) (pts 2))
                (crossProduct (pts 1) (pts 3)) i j) ∧
    (∀ i : Fin 5,
      quadEval ((conicPolarFormPoints ops jacobi pts st phi false).1.quadraticform)
        (pts i) = 0) := by
  constructor
  · intro i j
    rfl
  · intro i
    have hq : (conicPolarFormPoints ops jacobi pts st phi false).1.quadraticform
        = conicFivePointForm pts := rfl
    rw [hq]
    exact quadEval_fivePoint_zero pts i

/-- C3: a suspended evaluation (suspendUpdate = true, i.e. the caller's
recompute = false) leaves the cached state of every conic family
unchanged — rotationMatrix, curve.quadraticform, and for the general
conic the eigen data and the axis scalars a, b, c — and only applies
the stored rotation matrix to the trig parametrization. -/
theorem c3_suspended_evaluation_preserves_state (ops : Ops F)
    (jacobi : Mat3 F → Mat3 F × Mat3 F)
    (ie : EllipseInputs F) (se : EllipseState F)
    (ih : HyperbolaInputs F) (sh : HyperbolaState F)
    (ip : ParabolaInputs F) (sp : ParabolaState F)
    (pts : Fin 5 → Vec3 F) (ic : ConicCoeffInputs F)
    (sc sc6 : ConicState F) (phi : F) :
    (ellipsePolarForm ops ie se phi true
      = (se, matVecMult se.rotationMatrix
          (vec3 1 (ellipseA ie * ops.cos phi) (ellipseB ops ie * ops.sin phi)))) ∧
    (hyperbolaPolarForm ops ih sh phi true
      = (sh, matVecMult sh.rotationMatrix
          (vec3 1 (hyperbolaA ih / ops.cos phi) (hyperbolaB ops ih * ops.tan phi)))) ∧
    (parabolaPolarForm ops ip sp phi true
      = (sp, matVecMult sp.rotationMatrix
          (vec3 (parabolaE ops ip * 4) (parabolaE ops ip * 4 * (phi + parabolaA ip))
            (phi * phi + parabolaB ip * (parabolaE ops ip * 4))))) ∧
    (conicPolarFormPoints ops jacobi pts sc phi true = (sc, conicEval ops sc phi)) ∧
    (conicPolarFormCoeffs ops jacobi ic sc6 phi true = (sc6, conicEval ops sc6 phi)) :=
  ⟨rfl, rfl, rfl, rfl, rfl⟩

/-- C4: for every family, after one recomputing evaluation, a suspended
evaluation at the same parameter with unchanged live inputs returns the
same output, and a second suspended evaluation returns it again. -/
theorem c4_suspended_reevaluation_idempotent (ops : Ops F)
    (jacobi : Mat3 F → Mat3 F × Mat3 F)
    (ie : EllipseInputs F) (se : EllipseState F)
    (ih : HyperbolaInputs F) (sh : HyperbolaState F)
    (ip : ParabolaInputs F) (sp : ParabolaState F)
    (pts : Fin 5 → Vec3 F) (ic : ConicCoeffInputs F)
    (sc sc6 : ConicState F) (phi : F) :
    ((ellipsePolarForm ops ie ((ellipsePolarForm ops ie se phi false).1) phi true).2
        = (ellipsePolarForm ops ie se phi false).2 ∧
      (ellipsePolarForm ops ie
          ((ellipsePolarForm ops ie ((ellipsePolarForm ops ie se phi false).1) phi true).1)
          phi true).2
        = (ellipsePolarForm ops ie se phi false).2) ∧
    ((hyperbolaPolarForm ops ih ((hyperbolaPolarForm ops ih sh phi false).1) phi true).2
        = (hyperbolaPolarForm ops ih sh phi false).2 ∧
      (hyperbolaPolarForm ops ih
          ((hyperbolaPolarForm ops ih ((hyperbolaPolarForm ops ih sh phi false).1) phi true).1)
          phi true).2
        = (hyperbolaPolarForm ops ih sh phi false).2) ∧
    ((parabolaPolarForm ops ip ((parabolaPolarForm ops ip sp phi false).1) phi true).2
        = (parabolaPolarForm ops ip sp phi false).2 ∧
      (parabolaPolarForm ops ip
          ((parabolaPolarForm ops ip ((parabolaPolarForm ops ip sp phi false).1) phi true).1)
          phi true).2
        = (parabolaPolarForm ops ip sp phi false).2) ∧
    ((conicPolarFormPoints ops jacobi pts
          ((conicPolarFormPoints ops jacobi pts sc phi false).1) phi true).2
        = (conicPolarFormPoints ops jacobi pts sc phi false).2 ∧
      (conicPolarFormPoints ops jacobi pts
          ((conicPolarFormPoints ops jacobi pts
              ((conicPolarFormPoints ops jacobi pts sc phi false).1) phi true).1)
          phi true).2
        = (conicPolarFormPoints ops jacobi pts sc phi false).2) ∧
    ((conicPolarFormCoeffs ops jacobi ic
          ((conicPolarFormCoeffs ops jacobi ic sc6 phi false).1) phi true).2
        = (conicPolarFormCoeffs ops jacobi ic sc6 phi false).2 ∧
      (conicPolarFormCoeffs ops jacobi ic
          ((conicPolarFormCoeffs ops jacobi ic
              ((conicPolarFormCoeffs ops jacobi ic sc6 phi false).1) phi true).1)
          phi true).2
        = (conicPolarFormCoeffs ops jacobi ic sc6 phi false).2) :=
  ⟨⟨rfl, rfl⟩, ⟨rfl, rfl⟩, ⟨rfl, rfl⟩, ⟨rfl, rfl⟩, ⟨rfl, rfl⟩⟩

/-- C5: after every non-suspended evaluation of the general conic (both
the five-point and the six-coefficient variant) the stored primary
eigenvalue is non-negative, and the stored eigenvalue matrix is the
Jacobi output with its three diagonal entries jointly negated exactly
when the raw primary eigenvalue was negative. -/
theorem c5_primary_eigenvalue_nonneg (ops : Ops F)
    (jacobi : Mat3 F → Mat3 F × Mat3 F) (pts : Fin 5 → Vec3 F)
    (ic : ConicCoeffInputs F) (st st6 : ConicState F) (phi : F) :
    0 ≤ (conicPolarFormPoints ops jacobi pts st phi false).1.eigenVals 0 0 ∧
    0 ≤ (conicPolarFormCoeffs ops jacobi ic st6 phi false).1.eigenVals 0 0 ∧
    (∀ M : Mat3 F,
      (conicRecompute ops jacobi M).eigenVals
        = if (jacobi M).1 0 0 < 0
          then (fun i j => if i = j then -(jacobi M).1 i j else (jacobi M).1 i j)
          else (jacobi M).1) :=
  ⟨conicRecompute_eigen0_nonneg ops jacobi (conicFivePointForm pts),
   conicRecompute_eigen0_nonneg ops jacobi (conicCoeffMatrix ic),
   fun _ => rfl⟩

/-- C6: for any cached eigenvalue triple with a non-negative primary
eigenvalue and lambda1 at most 0 or lambda2 below 0, exactly one of the
three trigonometric branches of the general conic evaluator is reached,
and the evaluator produces a defined result (the fall-through path that
leaves v undefined is unreachable under that precondition). -/
theorem c6_branch_selector_total (ops : Ops F) (st : ConicState F) (phi : F)
    (h0 : 0 ≤ st.eigenVals 0 0)
    (h : st.eigenVals 1 1 ≤ 0 ∨ st.eigenVals 2 2 < 0) :
    ((branchReached1 st ∧ ¬branchReached2 st ∧ ¬branchReached3 st) ∨
     (¬branchReached1 st ∧ branchReached2 st ∧ ¬branchReached3 st) ∨
     (¬branchReached1 st ∧ ¬branchReached2 st ∧ branchReached3 st)) ∧
    (conicEval ops st phi).isSome = true := by
  constructor
  · by_cases h1 : st.eigenVals 1 1 ≤ 0
    · by_cases h2 : st.eigenVals 2 2 ≤ 0
      · exact Or.inl ⟨⟨h1, h2⟩, fun hc => hc.1 ⟨h1, h2⟩, fun hc => hc.1 ⟨h1, h2⟩⟩
      · exact Or.inr (Or.inl ⟨fun hc => h2 hc.2, ⟨fun hc => h2 hc.2, h1, not_le.mp h2⟩,
          fun hc => hc.2.1 ⟨h1, not_le.mp h2⟩⟩)
    · have h2 : st.eigenVals 2 2 < 0 := h.resolve_left h1
      exact Or.inr (Or.inr ⟨fun hc => h1 hc.1, fun hc => h1 hc.2.1,
        ⟨fun hc => h1 hc.1, fun hc => h1 hc.1, h2⟩⟩)
  · simp only [conicEval]
    split_ifs with hA hB hC
    · simp
    · simp
    · simp
    · exfalso
      rcases h with h1 | h2
      · exact hB ⟨h1, not_le.mp fun hle => hA ⟨h1, hle⟩⟩
      · exact hC h2

/-- Witness for C6 at the concrete ellipse-type eigenvalue pattern
(1, -1, -1): the first branch is reached and the result is defined. -/
theorem c6_branch_selector_total_witness :
    ((branchReached1 stW6 ∧ ¬branchReached2 stW6 ∧ ¬branchReached3 stW6) ∨
     (¬branchReached1 stW6 ∧ branchReached2 stW6 ∧ ¬branchReached3 stW6) ∨
     (¬branchReached1 stW6 ∧ ¬branchReached2 stW6 ∧ branchReached3 stW6)) ∧
    (conicEval opsW6 stW6 0).isSome = true :=
  c6_branch_selector_total opsW6 stW6 0 (by norm_num [stW6, mk3, vec3])
    (Or.inl (by norm_num [stW6, mk3, vec3]))

/-- C7: for an ellipse definition with e at most a, a recomputing
evaluation returns the similarity transform of the spec (translation to
the foci midpoint composed with rotation by the angle of the foci
segment, atan2 with sign correction and the vertical-segment branch)
applied to (1, a cos phi, b sin phi) with a = majorAxis()/2,
e = |f1 - f0|/2 and b = sqrt(a^2 - e^2), and caches exactly that
transform as the rotation matrix. -/
theorem c7_ellipse_polar_formula (ops : Ops F) (inp : EllipseInputs F)
    (st : EllipseState F) (phi : F) (h : ellipseE ops inp ≤ ellipseA inp) :
    (ellipsePolarForm ops inp st phi false).2
      = matVecMult (specEllipseRotation ops inp)
          (vec3 1 (specEllipseA inp * ops.cos phi)
            (specEllipseB ops inp * ops.sin phi)) ∧
    (ellipsePolarForm ops inp st phi false).1.rotationMatrix
      = specEllipseRotation ops inp := by
  constructor
  · show matVecMult (ellipseTransformFunc ops inp)
      (vec3 1 (ellipseA inp * ops.cos phi) (ellipseB ops inp * ops.sin phi)) = _
    rw [ellipseTransformFunc_eq_spec, ellipseA_eq_spec, ellipseB_eq_spec]
  · show ellipseTransformFunc ops inp = _
    exact ellipseTransformFunc_eq_spec ops inp

/-- Witness for C7 at the concrete ellipse with foci (0,0), (2,0) and
majorAxis 10 (so e = 1 is at most a = 5), evaluated at phi = 0. -/
theorem c7_ellipse_polar_formula_witness :
    ellipseE opsW7 inpW7 ≤ ellipseA inpW7 ∧
    ((ellipsePolarForm opsW7 inpW7 stW7 0 false).2
        = matVecMult (specEllipseRotation opsW7 inpW7)
            (vec3 1 (specEllipseA inpW7 * opsW7.cos 0)
              (specEllipseB opsW7 inpW7 * opsW7.sin 0)) ∧
      (ellipsePolarForm opsW7 inpW7 stW7 0 false).1.rotationMatrix
        = specEllipseRotation opsW7 inpW7) :=
  ⟨by norm_num [ellipseE, ellipseA, opsW7, inpW7],
   c7_ellipse_polar_formula opsW7 inpW7 stW7 0
     (by norm_num [ellipseE, ellipseA, opsW7, inpW7])⟩

/-- C8 counterexample: the claim asserts that suspended evaluations of
every family depend only on the cached state, not on the live inputs.
For the ellipse, two suspended calls on the same cached state (identity
rotation) with identical foci but majorAxis() = 10 versus 20 return
x-components 5 and 10: the axis lengths are recomputed live on every
call, suspended or not. -/
theorem c8_suspended_uses_live_axes_counterexample :
    (inpW8a.f0x = inpW8b.f0x ∧ inpW8a.f0y = inpW8b.f0y ∧
      inpW8a.f1x = inpW8b.f1x ∧ inpW8a.f1y = inpW8b.f1y) ∧
    (ellipsePolarForm opsW8 inpW8a stW8 0 true).2 1 = 5 ∧
    (ellipsePolarForm opsW8 inpW8b stW8 0 true).2 1 = 10 ∧
    (ellipsePolarForm opsW8 inpW8a stW8 0 true).2
      ≠ (ellipsePolarForm opsW8 inpW8b stW8 0 true).2 := by
  have ha : (ellipsePolarForm opsW8 inpW8a stW8 0 true).2 1 = 5 := by
    norm_num [ellipsePolarForm, ellipseA, ellipseE, ellipseB, opsW8, inpW8a, stW8,
      matVecMult, mk3, vec3]
  have hb : (ellipsePolarForm opsW8 inpW8b stW8 0 true).2 1 = 10 := by
    norm_num [ellipsePolarForm, ellipseA, ellipseE, ellipseB, opsW8, inpW8b, stW8,
      matVecMult, mk3, vec3]
  refine ⟨⟨rfl, rfl, rfl, rfl⟩, ha, hb, fun he => ?_⟩
  have h := congrFun he 1
  rw [ha, hb] at h
  norm_num at h

/-- C8 amended: only the general conic's suspended path is independent
of the live inputs — a suspended evaluation of the five-point or
six-coefficient conic gives identical state and output for any two
values of the live point coordinates or coefficient thunks. -/
theorem c8_amended_conic_suspended_ignores_live_inputs (ops : Ops F)
    (jacobi : Mat3 F → Mat3 F × Mat3 F) (pts pts' : Fin 5 → Vec3 F)
    (ic ic' : ConicCoeffInputs F) (st st6 : ConicState F) (phi : F) :
    conicPolarFormPoints ops jacobi pts st phi true
      = conicPolarFormPoints ops jacobi pts' st phi true ∧
    conicPolarFormCoeffs ops jacobi ic st6 phi true
      = conicPolarFormCoeffs ops jacobi ic' st6 phi true :=
  ⟨rfl, rfl⟩

/-- C9 counterexample: the claim asserts that when the raw primary
eigenvalue is negative, normalization flips the associated eigenvector
row of rotationMatrix.  With a concrete solver output whose eigenvalue
matrix is diag(-2, 3, 5) and whose eigenvector matrix is all ones, the
recompute makes the primary eigenvalue positive (2) yet every entry of
the installed rotationMatrix is still 1: no row (or column) was
negated. -/
theorem c9_no_eigenvector_flip_counterexample :
    (jacobiStub9 mZero).1 0 0 < 0 ∧
    (∀ i j : Fin 3, (conicRecompute opsW9 jacobiStub9 mZero).rotationMatrix i j = 1) ∧
    (conicRecompute opsW9 jacobiStub9 mZero).eigenVals 0 0 = 2 ∧
    ¬(∃ i : Fin 3, ∀ j : Fin 3,
        (conicRecompute opsW9 jacobiStub9 mZero).rotationMatrix i j
          = -(jacobiStub9 mZero).2 i j) := by
  refine ⟨by norm_num [jacobiStub9, mk3, vec3], fun i j => rfl, ?_, ?_⟩
  · norm_num [conicRecompute, jacobiStub9, mk3, vec3]
  · rintro ⟨i, hi⟩
    have h := hi 0
    norm_num [conicRecompute, jacobiStub9] at h

/-- C9 amended: when the raw primary eigenvalue is negative, the
normalization step negates the three eigenvalues jointly and leaves the
eigenvector matrix — installed unchanged as rotationMatrix — untouched,
making the primary eigenvalue positive. -/
theorem c9_amended_normalization_negates_eigenvalues_only (ops : Ops F)
    (jacobi : Mat3 F → Mat3 F × Mat3 F) (M : Mat3 F)
    (h : (jacobi M).1 0 0 < 0) :
    (conicRecompute ops jacobi M).rotationMatrix = (jacobi M).2 ∧
    (conicRecompute ops jacobi M).eigenVecs = (jacobi M).2 ∧
    (conicRecompute ops jacobi M).eigenVals 0 0 = -(jacobi M).1 0 0 ∧
    (conicRecompute ops jacobi M).eigenVals 1 1 = -(jacobi M).1 1 1 ∧
    (conicRecompute ops jacobi M).eigenVals 2 2 = -(jacobi M).1 2 2 ∧
    0 < (conicRecompute ops jacobi M).eigenVals 0 0 := by
  have h00 : (conicRecompute ops jacobi M).eigenVals 0 0 = -(jacobi M).1 0 0 := by
    simp only [conicRecompute, if_pos h]
    show (if (0 : Fin 3) = 0 then -(jacobi M).1 0 0 else (jacobi M).1 0 0) = _
    exact if_pos rfl
  have h11 : (conicRecompute ops jacobi M).eigenVals 1 1 = -(jacobi M).1 1 1 := by
    simp only [conicRecompute, if_pos h]
    show (if (1 : Fin 3) = 1 then -(jacobi M).1 1 1 else (jacobi M).1 1 1) = _
    exact if_pos rfl
  have h22 : (conicRecompute ops jacobi M).eigenVals 2 2 = -(jacobi M).1 2 2 := by
    simp only [conicRecompute, if_pos h]
    show (if (2 : Fin 3) = 2 then -(jacobi M).1 2 2 else (jacobi M).1 2 2) = _
    exact if_pos rfl
  refine ⟨rfl, rfl, h00, h11, h22, ?_⟩
  rw [h00]
  linarith

/-- Witness for the amended C9 at the concrete solver stub with raw
eigenvalues (-2, 3, 5). -/
theorem c9_amended_normalization_witness :
    (jacobiStub9 mZero).1 0 0 < 0 ∧
    ((conicRecompute opsW9 jacobiStub9 mZero).rotationMatrix = (jacobiStub9 mZero).2 ∧
      (conicRecompute opsW9 jacobiStub9 mZero).eigenVecs = (jacobiStub9 mZero).2 ∧
      (conicRecompute opsW9 jacobiStub9 mZero).eigenVals 0 0
        = -(jacobiStub9 mZero).1 0 0 ∧
      (conicRecompute opsW9 jacobiStub9 mZero).eigenVals 1 1
        = -(jacobiStub9 mZero).1 1 1 ∧
      (conicRecompute opsW9 jacobiStub9 mZero).eigenVals 2 2
        = -(jacobiStub9 mZero).1 2 2 ∧
      0 < (conicRecompute opsW9 jacobiStub9 mZero).eigenVals 0 0) :=
  ⟨by norm_num [jacobiStub9, mk3, vec3],
   c9_amended_normalization_negates_eigenvalues_only opsW9 jacobiStub9 mZero
     (by norm_num [jacobiStub9, mk3, vec3])⟩

/-- C10: a recomputing evaluation of the parabola returns the rotation
applied to the unnormalized vector (4e, 4e(t + a), t^2 + 4e b): the
first component of the result is 4e, not 1; curve.X and curve.Y return
the raw second and third components, which therefore equal 4e times the
affine coordinates of the transformed point (no division by the
homogeneous coordinate is performed, unlike the general conic). -/
theorem c10_parabola_unnormalized_output (ops : Ops F) (inp : ParabolaInputs F)
    (st : ParabolaState F) (t : F) (h : parabolaE ops inp ≠ 0) :
    ((parabolaPolarForm ops inp st t false).2
      = matVecMult (parabolaTransformFunc ops inp) (specParabolaPreVec ops inp t)) ∧
    ((parabolaPolarForm ops inp st t false).2 0 = 4 * parabolaE ops inp) ∧
    (parabolaX ops inp st t false = (parabolaPolarForm ops inp st t false).2 1) ∧
    (parabolaY ops inp st t false = (parabolaPolarForm ops inp st t false).2 2) ∧
    ((parabolaPolarForm ops inp st t false).2 1
      = 4 * parabolaE ops inp *
          ((parabolaPolarForm ops inp st t false).2 1 /
            (parabolaPolarForm ops inp st t false).2 0)) ∧
    ((parabolaPolarForm ops inp st t false).2 2
      = 4 * parabolaE ops inp *
          ((parabolaPolarForm ops inp st t false).2 2 /
            (parabolaPolarForm ops inp st t false).2 0)) := by
  have h0 : (parabolaPolarForm ops inp st t false).2 0 = 4 * parabolaE ops inp := by
    show matVecMult (parabolaTransformFunc ops inp)
      (vec3 (parabolaE ops inp * 4) (parabolaE ops inp * 4 * (t + parabolaA inp))
        (t * t + parabolaB inp * (parabolaE ops inp * 4))) 0 = _
    rw [matVecMult, parabolaTransformFunc]
    simp only [mk3_zero, vec3_zero, vec3_one, vec3_two]
    ring
  have h4 : 4 * parabolaE ops inp ≠ 0 := by
    intro hz
    apply h
    rcases mul_eq_zero.mp hz with h4z | he
    · norm_num at h4z
    · exact he
  refine ⟨?_, h0, rfl, rfl, ?_, ?_⟩
  · show matVecMult (parabolaTransformFunc ops inp)
      (vec3 (parabolaE ops inp * 4) (parabolaE ops inp * 4 * (t + parabolaA inp))
        (t * t + parabolaB inp * (parabolaE ops inp * 4))) = _
    rw [specParabolaPreVec]
    ring_nf
  · rw [h0]
    field_simp
  · rw [h0]
    field_simp

/-- Witness for C10 at the concrete parabola with midpoint (0,0) and
focus (0,2) (so e = 1), evaluated at t = 1. -/
theorem c10_parabola_unnormalized_output_witness :
    parabolaE opsW10 inpW10 ≠ 0 ∧
    (((parabolaPolarForm opsW10 inpW10 stW10 1 false).2
      = matVecMult (parabolaTransformFunc opsW10 inpW10)
          (specParabolaPreVec opsW10 inpW10 1)) ∧
    ((parabolaPolarForm opsW10 inpW10 stW10 1 false).2 0
      = 4 * parabolaE opsW10 inpW10) ∧
    (parabolaX opsW10 inpW10 stW10 1 false
      = (parabolaPolarForm opsW10 inpW10 stW10 1 false).2 1) ∧
    (parabolaY opsW10 inpW10 stW10 1 false
      = (parabolaPolarForm opsW10 inpW10 stW10 1 false).2 2) ∧
    ((parabolaPolarForm opsW10 inpW10 stW10 1 false).2 1
      = 4 * parabolaE opsW10 inpW10 *
          ((parabolaPolarForm opsW10 inpW10 stW10 1 false).2 1 /
            (parabolaPolarForm opsW10 inpW10 stW10 1 false).2 0)) ∧
    ((parabolaPolarForm opsW10 inpW10 stW10 1 false).2 2
      = 4 * parabolaE opsW10 inpW10 *
          ((parabolaPolarForm opsW10 inpW10 stW10 1 false).2 2 /
            (parabolaPolarForm opsW10 inpW10 stW10 1 false).2 0))) :=
  ⟨by norm_num [parabolaE, opsW10, inpW10],
   c10_parabola_unnormalized_output opsW10 inpW10 stW10 1
     (by norm_num [parabolaE, opsW10, inpW10])⟩

end ConicJS

